import Mathlib

/-!
Verification development for the borf-simp interpreter core.

The definitions below are a shallow embedding of the Rust sources:
  - src/repl/interpreter/stack_effects.rs  (STACKER translator, peephole pass)
  - src/repl/interpreter/effects.rs        (resource / linearity tracker)
  - src/repl/interpreter/evaluator.rs      (stack-machine evaluator)
  - src/repl/interpreter/env.rs            (environment)
  - src/repl/interpreter/types.rs          (AST and value model)

Modelling conventions:
  - Rust `i32` is modelled as `Int`; arithmetic that can overflow goes
    through `wrap32` (two's-complement wrap-around).
  - Rust `HashMap` is modelled as an association list with `assocInsert`
    (insert-or-overwrite) and `List.lookup`; `HashSet` as a duplicate-free
    `List Nat` via `setInsert`.  Only lookup/membership semantics of these
    containers are relied on, so iteration-order differences are immaterial.
  - A Rust `&mut self` method that can fail is modelled as a function
    returning the post-call state paired with an `Except` result; the
    error branches return the state exactly as far as the Rust control
    flow had mutated it when it returned early.
  - `Vec` used as a stack (evaluation stack, region stack) is modelled as
    a `List` whose head is the top of the stack (the back of the `Vec`).
-/

/-- Two's-complement wrap-around of Rust `i32` arithmetic. -/
def wrap32 (n : Int) : Int := (n + 2 ^ 31) % 2 ^ 32 - 2 ^ 31

/-- `HashMap::insert`: overwrite the binding for `k` if present, else add it. -/
def assocInsert {κ α : Type} [BEq κ] : List (κ × α) → κ → α → List (κ × α)
  | [], k, v => [(k, v)]
  | (k', v') :: t, k, v =>
    if k' == k then (k, v) :: t else (k', v') :: assocInsert t k v

/-- `HashSet::insert` on a duplicate-free list of ids. -/
def setInsert (l : List Nat) (id : Nat) : List Nat :=
  if id ∈ l then l else id :: l

/-- Whether an `Except` result is an error. -/
def isError {ε α : Type} : Except ε α → Bool
  | .error _ => true
  | .ok _ => false

/-- `Param` from types.rs; `tyAnnot` models the `type_annotation` field
(it is never consulted by the translator or the evaluator). -/
structure Param where
  name : String
  tyAnnot : Option String := none
deriving Repr, DecidableEq

/-- AST expressions (`Expr` in types.rs) restricted to the constructors the
claims exercise: literals, symbols, pipelines and (typed) quotations.  The
remaining constructors of the Rust enum hit the same catch-all arms as
`typedQuot` does in the translator and are not needed by any claim. -/
inductive Expr where
  | num (n : Int)
  | str (s : String)
  | boolean (b : Bool)
  | sym (s : String)
  | pipeline (l r : Expr)
  | quot (params : List Param) (body : List Expr)
  | typedQuot (params : List Param) (body : List Expr) (returnType : String)
deriving Repr

/-- `StackEffect` from stack_effects.rs. -/
structure StackEffect where
  inputs : List String
  outputs : List String
deriving Repr, DecidableEq

/-- `StackEffect::stack_depth_change`. -/
def StackEffect.stack_depth_change (e : StackEffect) : Int :=
  (e.outputs.length : Int) - (e.inputs.length : Int)

/-- Shorthand used below to transcribe the effect table. -/
def mkEff (ins outs : List String) : StackEffect := ⟨ins, outs⟩

/-- Decimal value of a digit run, `none` if any character is not an ASCII
digit. -/
def digitsToNat (cs : List Char) : Option Nat :=
  cs.foldl
    (fun acc c =>
      match acc with
      | none => none
      | some n =>
        if 48 ≤ c.toNat && c.toNat ≤ 57 then some (n * 10 + (c.toNat - 48)) else none)
    (some 0)

/-- Rust `word.parse::<i32>().is_ok()`: an optional sign, at least one
digit, only digits, and a value within the `i32` range. -/
def parsesAsI32 (w : String) : Bool :=
  match w.data with
  | [] => false
  | c :: rest =>
    let signed :=
      if c = Char.ofNat 45 then (true, rest)
      else if c = Char.ofNat 43 then (false, rest)
      else (false, c :: rest)
    match signed.2 with
    | [] => false
    | digits =>
      match digitsToNat digits with
      | none => false
      | some n => if signed.1 then decide (n ≤ 2 ^ 31) else decide (n < 2 ^ 31)

/-- Rust `word.starts_with(CH)` for a single character. -/
def firstCharIs (w : String) (c : Char) : Bool :=
  match w.data with
  | [] => false
  | c0 :: _ => c0 = c

/-- Rust `word.ends_with(CH)` for a single character. -/
def lastCharIs (w : String) (c : Char) : Bool :=
  match w.data.getLast? with
  | none => false
  | some c0 => c0 = c

/-- `get_word_effect` from stack_effects.rs: the declared stack effect of a
built-in word, or `none` for unknown words (and for `pick`/`roll`, whose
effects are declared as special cases returning `None`). -/
def get_word_effect (word : String) : Option StackEffect :=
  match word with
  | "dup" => some (mkEff ["a"] ["a", "a"])
  | "drop" => some (mkEff ["a"] [])
  | "swap" => some (mkEff ["a", "b"] ["b", "a"])
  | "rot" => some (mkEff ["a", "b", "c"] ["b", "c", "a"])
  | "over" => some (mkEff ["a", "b"] ["a", "b", "a"])
  | "tuck" => some (mkEff ["a", "b"] ["b", "a", "b"])
  | "nip" => some (mkEff ["a", "b"] ["b"])
  | "pick" => none
  | "roll" => none
  | "+" | "add" => some (mkEff ["a", "b"] ["sum"])
  | "-" | "sub" => some (mkEff ["a", "b"] ["diff"])
  | "*" | "mul" => some (mkEff ["a", "b"] ["product"])
  | "/" | "div" => some (mkEff ["a", "b"] ["quotient"])
  | "mod" => some (mkEff ["a", "b"] ["remainder"])
  | "sqrt" => some (mkEff ["a"] ["sqrt"])
  | "and" => some (mkEff ["a", "b"] ["result"])
  | "or" => some (mkEff ["a", "b"] ["result"])
  | "not" => some (mkEff ["a"] ["result"])
  | "==" | "eq" => some (mkEff ["a", "b"] ["result"])
  | "!=" => some (mkEff ["a", "b"] ["result"])
  | "<" => some (mkEff ["a", "b"] ["result"])
  | ">" => some (mkEff ["a", "b"] ["result"])
  | "<=" => some (mkEff ["a", "b"] ["result"])
  | ">=" => some (mkEff ["a", "b"] ["result"])
  | "dip" => some (mkEff ["x", "quot"] ["quot(x)"])
  | "bi" => some (mkEff ["x", "p", "q"] ["p(x)", "q(x)"])
  | "tri" => some (mkEff ["x", "p", "q", "r"] ["p(x)", "q(x)", "r(x)"])
  | "keep" => some (mkEff ["x", "quot"] ["x", "quot(x)"])
  | "bi*" => some (mkEff ["x", "y", "p", "q"] ["p(x)", "q(y)"])
  | "bi@" => some (mkEff ["x", "y", "p"] ["p(x)", "p(y)"])
  | _ =>
    if parsesAsI32 word then some (mkEff [] ["n"])
    else if firstCharIs word (Char.ofNat 34) && lastCharIs word (Char.ofNat 34) then
      some (mkEff [] ["str"])
    else none

/-- `is_binary_op` from stack_effects.rs. -/
def is_binary_op : Expr → Bool
  | .sym s =>
    match s with
    | "+" | "-" | "*" | "/" | "mod" | "==" | "!=" | "<" | ">" | "<=" | ">="
    | "and" | "or" => true
    | _ => false
  | _ => false

/-- `is_unary_op` from stack_effects.rs. -/
def is_unary_op : Expr → Bool
  | .sym s =>
    match s with
    | "not" | "sqrt" | "sin" | "cos" | "tan" | "abs" | "neg" => true
    | _ => false
  | _ => false

/-- `StackerTranslator::apply_peephole_optimizations` from stack_effects.rs.

The Rust method is a single left-to-right index sweep over `self.output`
with fixed lookahead; here the remaining suffix of the output is the
argument, and "copy one element and advance" is the final catch-all arm.
Each rewrite rule is transcribed in the order the Rust `if`-chain tests it;
rules whose windows start with `Number(1)` and `Number(0)` are disjoint, so
the relative order of the two groups is immaterial.  Within an arm, the
`else` branch reproduces what the sweep does when the rule's trailing
condition fails (no later rule can fire at that position, so the head is
copied). -/
def apply_peephole_optimizations : List Expr → List Expr
  | [] => []
  | .num 1 :: .sym "pick" :: .num 1 :: .sym "pick" :: op :: rest =>
    if is_binary_op op then
      op :: apply_peephole_optimizations rest
    else
      .num 1 :: apply_peephole_optimizations (.sym "pick" :: .num 1 :: .sym "pick" :: op :: rest)
  | .num 0 :: .sym "pick" :: .num 1 :: .sym "pick" :: op :: rest =>
    if is_binary_op op then
      .sym "swap" :: op :: apply_peephole_optimizations rest
    else
      .num 0 :: apply_peephole_optimizations (.sym "pick" :: .num 1 :: .sym "pick" :: op :: rest)
  | .num 0 :: .sym "pick" :: op :: rest =>
    if is_unary_op op then
      op :: apply_peephole_optimizations rest
    else
      match op, rest with
      | .sym "drop", rest' => .sym "drop" :: apply_peephole_optimizations rest'
      | op', rest' => .num 0 :: apply_peephole_optimizations (.sym "pick" :: op' :: rest')
  | .num 1 :: .sym "pick" :: .sym "drop" :: rest =>
    .sym "nip" :: apply_peephole_optimizations rest
  | [.num 1, .sym "pick"] => [.sym "swap", .sym "drop"]
  | [.num 0, .sym "pick"] => []
  | x :: xs => x :: apply_peephole_optimizations xs

/-- Translator-side errors.  The Rust code reports all of them through
`BorfError::StackEffectError` with distinct `message` texts; each
constructor below stands for one of those messages:
  - `unknownWordEffect w`: "Unknown word ... with no stack effect declaration"
  - `paramAlreadyConsumed p`: "Parameter ... has already been consumed and cannot be used again"
  - `negativeDepth p d`: "Invalid stack depth for parameter ...: d"
  - `unsupportedExpr`: "Unsupported expression in translation: ..." -/
inductive TransError where
  | unknownWordEffect (word : String)
  | paramAlreadyConsumed (param : String)
  | negativeDepth (param : String) (depth : Int)
  | unsupportedExpr
deriving Repr, DecidableEq

/-- The mutable state of `StackerTranslator` (stack_effects.rs).  Field names
follow the Rust struct. -/
structure StackerTranslator where
  param_depths : List (String × Nat)
  current_stack_depth_increase : Int
  output : List Expr
  param_usage_count : List (String × Nat)
  param_last_use : List (String × Nat)
  consumed_params : List String
  adjusted_param_depths : List (String × Int)

/-- The state `StackerTranslator::new` / the reset at the top of
`translate` produces. -/
def StackerTranslator.empty : StackerTranslator :=
  ⟨[], 0, [], [], [], [], []⟩

/-- Step 1 of `translate`: `for (i, param) in params.iter().enumerate().rev()`
inserting `i` into `param_depths` and `adjusted_param_depths`.  Note that the
value inserted is the enumeration index `i` itself (the `.rev()` only changes
insertion order), so the FIRST parameter gets depth 0. -/
def seedParamDepths (st : StackerTranslator) (params : List Param) : StackerTranslator :=
  (params.enum.reverse).foldl
    (fun st' (p : Nat × Param) =>
      { st' with
          param_depths := assocInsert st'.param_depths p.2.name p.1
          adjusted_param_depths := assocInsert st'.adjusted_param_depths p.2.name (p.1 : Int) })
    st

/-- One expression of `StackerTranslator::analyze_parameter_usage`.  The Rust
code recurses on a `Pipeline` by analyzing the two-element body
`[left, right]`, i.e. with fresh indices 0 and 1; `Quotation` bodies are
deliberately not scanned. -/
def analyze_expr (st : StackerTranslator) (e : Expr) (index : Nat) : StackerTranslator :=
  match e with
  | .sym s =>
    if (List.lookup s st.param_depths).isSome then
      { st with
          param_usage_count :=
            assocInsert st.param_usage_count s ((List.lookup s st.param_usage_count).getD 0 + 1)
          param_last_use := assocInsert st.param_last_use s index }
    else st
  | .pipeline l r => analyze_expr (analyze_expr st l 0) r 1
  | _ => st

/-- The indexed loop of `analyze_parameter_usage`. -/
def analyze_list (st : StackerTranslator) (i : Nat) : List Expr → StackerTranslator
  | [] => st
  | e :: rest => analyze_list (analyze_expr st e i) (i + 1) rest

/-- `StackerTranslator::analyze_parameter_usage`. -/
def analyze_parameter_usage (st : StackerTranslator) (body : List Expr) : StackerTranslator :=
  analyze_list st 0 body

/-- The emit-and-consume block of `translate_expr_enhanced` for the last use
of parameter `s` sitting at `actual_depth`: depth 0 emits nothing, depth 1
emits `swap`, depth 2 emits `rot`, deeper emits `<depth> roll`; the
parameter is appended to `consumed_params` and every adjusted depth strictly
greater than `actual_depth` is decremented. -/
def consumeLastUse (st : StackerTranslator) (s : String) (actual_depth : Int) :
    StackerTranslator :=
  let st1 :=
    if actual_depth == 0 then
      { st with consumed_params := st.consumed_params ++ [s] }
    else if actual_depth == 1 then
      { st with
          output := st.output ++ [.sym "swap"]
          consumed_params := st.consumed_params ++ [s] }
    else if actual_depth > 1 then
      if actual_depth ≤ 3 then
        if actual_depth == 2 then
          { st with
              output := st.output ++ [.sym "rot"]
              consumed_params := st.consumed_params ++ [s] }
        else
          { st with
              output := st.output ++ [.num actual_depth, .sym "roll"]
              consumed_params := st.consumed_params ++ [s] }
      else
        { st with
            output := st.output ++ [.num actual_depth, .sym "roll"]
            consumed_params := st.consumed_params ++ [s] }
    else st
  { st1 with
      adjusted_param_depths :=
        st1.adjusted_param_depths.map
          (fun p => if p.2 > actual_depth then (p.1, p.2 - 1) else p) }

mutual

/-- `StackerTranslator::translate_expr_enhanced` (stack_effects.rs).
`adjusted_param_depths[s]` is transcribed as a `getD 0` lookup: the key is
present whenever `s` is a key of `param_depths`, because both maps are
seeded together and neither ever loses a key, so the Rust indexing cannot
panic. -/
def translate_expr_enhanced (st : StackerTranslator) (e : Expr) (index : Nat) :
    Except TransError StackerTranslator :=
  match e with
  | .num n =>
    .ok { st with
            output := st.output ++ [.num n]
            current_stack_depth_increase := st.current_stack_depth_increase + 1 }
  | .str s =>
    .ok { st with
            output := st.output ++ [.str s]
            current_stack_depth_increase := st.current_stack_depth_increase + 1 }
  | .boolean b =>
    .ok { st with
            output := st.output ++ [.boolean b]
            current_stack_depth_increase := st.current_stack_depth_increase + 1 }
  | .sym s =>
    if (List.lookup s st.param_depths).isSome then
      if st.consumed_params.contains s then
        .error (.paramAlreadyConsumed s)
      else
        let is_last_use := List.lookup s st.param_last_use == some index
        let actual_depth :=
          (List.lookup s st.adjusted_param_depths).getD 0 + st.current_stack_depth_increase
        if actual_depth < 0 then
          .error (.negativeDepth s actual_depth)
        else if is_last_use then
          .ok (consumeLastUse st s actual_depth)
        else
          .ok { st with
                  output := st.output ++ [.num actual_depth, .sym "pick"]
                  current_stack_depth_increase := st.current_stack_depth_increase + 1 }
    else
      match get_word_effect s with
      | none => .error (.unknownWordEffect s)
      | some eff =>
        -- Special case for pick and roll in the Rust code: both branches of
        -- its inner `if` add 0 to the depth counter (it is dead code anyway,
        -- since `get_word_effect` returns `None` for "pick" and "roll").
        let st1 :=
          if s == "pick" || s == "roll" then st
          else { st with
                   current_stack_depth_increase :=
                     st.current_stack_depth_increase + eff.stack_depth_change }
        .ok { st1 with output := st1.output ++ [.sym s] }
  | .pipeline l r => do
    let st1 ← translate_expr_enhanced st l index
    translate_expr_enhanced st1 r index
  | .quot inner_params inner_body =>
    let saved_params := st.param_depths
    let saved_adjusted_depths := st.adjusted_param_depths
    let saved_consumed := st.consumed_params
    let stOpen := { st with output := st.output ++ [.sym "["] }
    (do
      let st2 : StackerTranslator ←
        if inner_params.isEmpty then
          translate_body_list stOpen 0 inner_body
        else do
          let translated_body ← StackerTranslator.translate inner_params inner_body
          pure { stOpen with output := stOpen.output ++ translated_body }
      let st3 :=
        { st2 with
            output := st2.output ++ [Expr.sym "]"]
            current_stack_depth_increase := st2.current_stack_depth_increase + 1 }
      .ok { st3 with
              param_depths := saved_params
              adjusted_param_depths := saved_adjusted_depths
              consumed_params := saved_consumed })
  | .typedQuot _ _ _ => .error .unsupportedExpr
termination_by (sizeOf e, 0)

/-- The `for (index, expr) in body.iter().enumerate()` loop of `translate`
(also reused verbatim for the inline translation of a parameterless nested
quotation, which enumerates the inner body from 0). -/
def translate_body_list (st : StackerTranslator) (i : Nat) (body : List Expr) :
    Except TransError StackerTranslator :=
  match body with
  | [] => .ok st
  | e :: rest => do
    let st' ← translate_expr_enhanced st e i
    translate_body_list st' (i + 1) rest
termination_by (sizeOf body, 0)

/-- `StackerTranslator::translate` (stack_effects.rs): reset state, seed the
parameter depth maps, analyze usage, translate the body, and run the
peephole pass over the output. -/
def StackerTranslator.translate (params : List Param) (body : List Expr) :
    Except TransError (List Expr) := do
  let st0 := seedParamDepths StackerTranslator.empty params
  let st1 := analyze_parameter_usage st0 body
  let st2 ← translate_body_list st1 0 body
  .ok (apply_peephole_optimizations st2.output)
termination_by (sizeOf body, 1)

end

/-- `translate_quotation` (stack_effects.rs): the free-function entry point,
a fresh translator running `translate`. -/
def translate_quotation (params : List Param) (body : List Expr) :
    Except TransError (List Expr) :=
  StackerTranslator.translate params body

/-! A structurally recursive twin of the translator on quotation-free
expressions.  `translate_expr_enhanced` is defined by well-founded
recursion (it recurses into nested quotations through `translate`), so the
kernel cannot evaluate it on concrete inputs; the twin below is the same
function restricted to expressions without nested `quot` nodes, proved
equal to the original by `translate_expr_flat_eq`, and is used only to
compute concrete translations by reduction. -/

/-- `true` when the expression contains no `quot` node. -/
def quot_free : Expr → Bool
  | .quot _ _ => false
  | .pipeline l r => quot_free l && quot_free r
  | _ => true

/-- Structural twin of `translate_expr_enhanced` for `quot_free`
expressions (the `quot` arm, never reached, reports `unsupportedExpr`). -/
def translate_expr_flat (st : StackerTranslator) (e : Expr) (index : Nat) :
    Except TransError StackerTranslator :=
  match e with
  | .num n =>
    .ok { st with
            output := st.output ++ [.num n]
            current_stack_depth_increase := st.current_stack_depth_increase + 1 }
  | .str s =>
    .ok { st with
            output := st.output ++ [.str s]
            current_stack_depth_increase := st.current_stack_depth_increase + 1 }
  | .boolean b =>
    .ok { st with
            output := st.output ++ [.boolean b]
            current_stack_depth_increase := st.current_stack_depth_increase + 1 }
  | .sym s =>
    if (List.lookup s st.param_depths).isSome then
      if st.consumed_params.contains s then
        .error (.paramAlreadyConsumed s)
      else
        let is_last_use := List.lookup s st.param_last_use == some index
        let actual_depth :=
          (List.lookup s st.adjusted_param_depths).getD 0 + st.current_stack_depth_increase
        if actual_depth < 0 then
          .error (.negativeDepth s actual_depth)
        else if is_last_use then
          .ok (consumeLastUse st s actual_depth)
        else
          .ok { st with
                  output := st.output ++ [.num actual_depth, .sym "pick"]
                  current_stack_depth_increase := st.current_stack_depth_increase + 1 }
    else
      match get_word_effect s with
      | none => .error (.unknownWordEffect s)
      | some eff =>
        let st1 :=
          if s == "pick" || s == "roll" then st
          else { st with
                   current_stack_depth_increase :=
                     st.current_stack_depth_increase + eff.stack_depth_change }
        .ok { st1 with output := st1.output ++ [.sym s] }
  | .pipeline l r =>
    match translate_expr_flat st l index with
    | .error e' => .error e'
    | .ok st1 => translate_expr_flat st1 r index
  | .quot _ _ => .error .unsupportedExpr
  | .typedQuot _ _ _ => .error .unsupportedExpr

/-- Structural twin of `translate_body_list`. -/
def translate_body_flat (st : StackerTranslator) (i : Nat) : List Expr →
    Except TransError StackerTranslator
  | [] => .ok st
  | e :: rest =>
    match translate_expr_flat st e i with
    | .error e' => .error e'
    | .ok st' => translate_body_flat st' (i + 1) rest

/-- Structural twin of `StackerTranslator.translate`. -/
def translate_flat (params : List Param) (body : List Expr) :
    Except TransError (List Expr) :=
  let st0 := seedParamDepths StackerTranslator.empty params
  let st1 := analyze_parameter_usage st0 body
  match translate_body_flat st1 0 body with
  | .error e => .error e
  | .ok st2 => .ok (apply_peephole_optimizations st2.output)

mutual

/-- Runtime values (`Value` in types.rs).  `Ty` payloads of `Type`-carrying
constructors are modelled by their rendered name because no claim inspects
them; every other constructor is carried in full.  `HashMap` payloads are
association lists. -/
inductive Value where
  | number (n : Int)
  | string (s : String)
  | symbol (s : String)
  | quotation (params : List Param) (body : List Expr) (env : Option Env)
  | typedQuotation (params : List Param) (body : List Expr) (returnType : String)
      (env : Option Env)
  | pipelineV (l r : Value)
  | listV (items : List Value)
  | mapV (entries : List (String × Value))
  | quoted (v : Value)
  | quasiquoted (v : Value)
  | typeV (t : String)
  | quotedType (t : String)
  | module (name : String) (defs : List (String × Value))
  | resource (id : Nat) (inner : Value)
  | borrowedResource (id : Nat) (inner : Value)
  | optional (v : Option Value)
  | variant (tag : String) (fields : List Value)
  | nothing
  | nil

/-- `Env` from types.rs: bindings plus an optional boxed parent. -/
inductive Env where
  | mk (bindings : List (String × Value)) (parent : Option Env)

end

/-- `Env::new`. -/
def Env.new : Env := .mk [] none

/-- `Env::get`: nearest binding walking parent links outward. -/
def Env.get : Env → String → Option Value
  | .mk bindings none, name => List.lookup name bindings
  | .mk bindings (some p), name =>
    match List.lookup name bindings with
    | some v => some v
    | none => Env.get p name

/-- `Env::set`: insert/overwrite in the current scope only. -/
def Env.set : Env → String → Value → Env
  | .mk bindings parent, name, v => .mk (assocInsert bindings name v) parent

/-- `EvaluatorError` from types.rs.  Each constructor carries the exact
`format!` message text the Rust code builds. -/
inductive EvaluatorError where
  | fileError (msg : String)
  | parseError (msg : String)
  | evalError (msg : String)
  | typeError (msg : String)
deriving Repr, DecidableEq

/-- `Resource` from effects.rs. -/
structure Resource where
  id : Nat
  resource_type : String
  consumed : Bool
deriving Repr, DecidableEq

/-- `Resource::new`. -/
def Resource.new (id : Nat) (resource_type : String) : Resource :=
  ⟨id, resource_type, false⟩

/-- `Resource::mark_consumed`: errors if the flag is already set, else sets
it. -/
def Resource.mark_consumed (r : Resource) : Except EvaluatorError Resource :=
  if r.consumed then
    .error (.evalError ("Resource " ++ toString r.id ++ " (type " ++ r.resource_type
      ++ ") already consumed"))
  else
    .ok { r with consumed := true }

/-- `ResourceManager` from effects.rs.  `current_regions` is the Rust `Vec`
of `HashSet`s with the innermost (most recently pushed, i.e. back of the
`Vec`) region at the head of the list. -/
structure ResourceManager where
  resources : List (Nat × Resource)
  next_id : Nat
  current_regions : List (List Nat)
deriving Repr, DecidableEq

/-- `ResourceManager::new`. -/
def ResourceManager.new : ResourceManager := ⟨[], 0, []⟩

/-- `ResourceManager::create_resource`: allocate a fresh monotonically
increasing id; always succeeds. -/
def ResourceManager.create_resource (rm : ResourceManager) (resource_type : String) :
    Nat × ResourceManager :=
  (rm.next_id,
   { rm with
       next_id := rm.next_id + 1
       resources := assocInsert rm.resources rm.next_id (Resource.new rm.next_id resource_type) })

/-- `ResourceManager::is_borrowed`: the id is in some active region. -/
def ResourceManager.is_borrowed (rm : ResourceManager) (id : Nat) : Bool :=
  rm.current_regions.any (fun region => region.contains id)

/-- `ResourceManager::consume_resource`.  The pair's first component is the
manager after the call (the Rust method mutates `self` only on the success
path, every `return Err` happens before any mutation). -/
def ResourceManager.consume_resource (rm : ResourceManager) (id : Nat) :
    ResourceManager × Except EvaluatorError Unit :=
  match List.lookup id rm.resources with
  | some r =>
    if rm.is_borrowed id then
      (rm, .error (.evalError ("Cannot consume borrowed resource " ++ toString id
        ++ " (type " ++ r.resource_type ++ ")")))
    else
      match r.mark_consumed with
      | .error e => (rm, .error e)
      | .ok r' => ({ rm with resources := assocInsert rm.resources id r' }, .ok ())
  | none => (rm, .error (.evalError ("Resource with ID " ++ toString id ++ " not found")))

/-- `ResourceManager::check_resource` (read-only). -/
def ResourceManager.check_resource (rm : ResourceManager) (id : Nat) :
    Except EvaluatorError Unit :=
  match List.lookup id rm.resources with
  | some r =>
    if r.consumed then
      .error (.evalError ("Resource " ++ toString id ++ " (type " ++ r.resource_type
        ++ ") has been consumed"))
    else .ok ()
  | none => .error (.evalError ("Resource with ID " ++ toString id ++ " not found"))

/-- `ResourceManager::resource_type` (read-only). -/
def ResourceManager.resource_type (rm : ResourceManager) (id : Nat) :
    Except EvaluatorError String :=
  match List.lookup id rm.resources with
  | some r => .ok r.resource_type
  | none => .error (.evalError ("Resource with ID " ++ toString id ++ " not found"))

/-- `ResourceManager::start_region`: push an empty region. -/
def ResourceManager.start_region (rm : ResourceManager) : ResourceManager :=
  { rm with current_regions := [] :: rm.current_regions }

/-- `ResourceManager::end_region`: pop the innermost region, error if none
is open. -/
def ResourceManager.end_region (rm : ResourceManager) :
    ResourceManager × Except EvaluatorError Unit :=
  match rm.current_regions with
  | _ :: rest => ({ rm with current_regions := rest }, .ok ())
  | [] => (rm, .error (.evalError "No active borrowing region"))

/-- `ResourceManager::borrow_resource`: check the resource, then insert its
id into the innermost open region. -/
def ResourceManager.borrow_resource (rm : ResourceManager) (id : Nat) :
    ResourceManager × Except EvaluatorError Unit :=
  match rm.check_resource id with
  | .error e => (rm, .error e)
  | .ok () =>
    match rm.current_regions with
    | region :: rest =>
      ({ rm with current_regions := setInsert region id :: rest }, .ok ())
    | [] => (rm, .error (.evalError "No active borrowing region"))

/-- `leaked` as computed inside `ResourceManager::check_for_leaks`: one
formatted entry per resource whose consumed flag is still false. -/
def leaked_entries (rm : ResourceManager) : List String :=
  rm.resources.filterMap
    (fun p =>
      if !p.2.consumed then some (toString p.1 ++ " (type " ++ p.2.resource_type ++ ")")
      else none)

/-- `ResourceManager::check_for_leaks` (read-only): an error listing every
never-consumed resource, `Ok` when there are none. -/
def ResourceManager.check_for_leaks (rm : ResourceManager) : Except EvaluatorError Unit :=
  let leaked := leaked_entries rm
  if leaked.isEmpty then .ok ()
  else
    .error (.evalError ("Resource leak detected: " ++ toString leaked.length
      ++ " resources not consumed: " ++ String.intercalate ", " leaked))

/-- `ResourceValue::get_resource_id` for `Value` (effects.rs): only a
`Resource` value carries a consumable id; in particular a
`BorrowedResource` yields `none`. -/
def get_resource_id : Value → Option Nat
  | .resource id _ => some id
  | _ => none

/-- `ResourceValue::with_resource_id` for `Value` (effects.rs): a value that
is already a `Resource` is re-tagged (keeping its inner value), any other
value is wrapped. -/
def with_resource_id (v : Value) (id : Nat) : Value :=
  match v with
  | .resource _ inner => .resource id inner
  | _ => .resource id v

/-- `ResourceValue::is_resource` for `Value`. -/
def is_resource : Value → Bool
  | .resource _ _ => true
  | _ => false

/-- `tag_as_resource` (effects.rs). -/
def tag_as_resource (value : Value) (resource_type : String) (manager : ResourceManager) :
    Value × ResourceManager :=
  let (id, manager') := manager.create_resource resource_type
  (with_resource_id value id, manager')

/-- `consume_resource` free function (effects.rs): consume the value's
resource id in the manager and return the wrapped inner value. -/
def consume_resource (value : Value) (manager : ResourceManager) :
    ResourceManager × Except EvaluatorError Value :=
  match get_resource_id value with
  | some id =>
    match manager.consume_resource id with
    | (manager', .error e) => (manager', .error e)
    | (manager', .ok ()) =>
      (manager',
       .ok (match value with
            | .resource _ inner => inner
            | _ => .nil))
  | none => (manager, .error (.evalError "Expected a resource value"))

/-- `borrow_resource` free function (effects.rs): borrow the value's
resource id and return a `BorrowedResource` handle. -/
def borrow_resource (value : Value) (manager : ResourceManager) :
    ResourceManager × Except EvaluatorError Value :=
  match get_resource_id value with
  | some id =>
    match manager.borrow_resource id with
    | (manager', .error e) => (manager', .error e)
    | (manager', .ok ()) =>
      (manager',
       .ok (match value with
            | .resource _ inner => .borrowedResource id inner
            | _ => .nil))
  | none => (manager, .error (.evalError "Expected a resource value"))

/-- The `Evaluator` state (evaluator.rs): environment, value stack (head =
top) and resource manager.  The `prelude_path` field is omitted: it is only
read by the file-loading entry points, which are outside every claim. -/
structure Evaluator where
  env : Env
  stack : List Value
  resource_manager : ResourceManager

/-- A fresh evaluator (`Evaluator::new`) before `initialize` has run: empty
environment, empty stack, fresh resource manager. -/
def Evaluator.new : Evaluator := ⟨Env.new, [], ResourceManager.new⟩

/-- `Evaluator::execute_operation` (evaluator.rs, lines 320-665).  Each arm
transcribes the corresponding Rust match arm, including its exact error
messages; `println!` output is dropped (the state change is kept).  The
arms `type`, `type_equals`, `type_to_string`, `type_quote`, `type_unquote`
and `type_quasiquote` are omitted: they depend on the type checker, which
no claim touches, and no theorem below evaluates those operation names.
Note the table has no arm for `+`, `-`, `*`, `/`, `roll` or `nip`: those
names fall into the catch-all `Unknown operation` error. -/
def execute_operation (operation : String) (st : Evaluator) :
    Except EvaluatorError Evaluator :=
  match operation with
  | "print" =>
    match st.stack with
    | _ :: rest => .ok { st with stack := rest }
    | [] => .ok st
  | "add" =>
    match st.stack with
    | b :: a :: rest =>
      match a, b with
      | .number x, .number y => .ok { st with stack := .number (wrap32 (x + y)) :: rest }
      | _, _ => .error (.evalError "add requires two numbers")
    | _ => .error (.evalError "add requires two values on the stack")
  | "sub" =>
    match st.stack with
    | b :: a :: rest =>
      match a, b with
      | .number x, .number y => .ok { st with stack := .number (wrap32 (x - y)) :: rest }
      | _, _ => .error (.evalError "sub requires two numbers")
    | _ => .error (.evalError "sub requires two values on the stack")
  | "mul" =>
    match st.stack with
    | b :: a :: rest =>
      match a, b with
      | .number x, .number y => .ok { st with stack := .number (wrap32 (x * y)) :: rest }
      | _, _ => .error (.evalError "mul requires two numbers")
    | _ => .error (.evalError "mul requires two values on the stack")
  | "dup" =>
    match st.stack with
    | v :: rest => .ok { st with stack := v :: v :: rest }
    | [] => .error (.evalError "dup requires a value on the stack")
  | "drop" =>
    match st.stack with
    | _ :: rest => .ok { st with stack := rest }
    | [] => .error (.evalError "drop requires a value on the stack")
  | "swap" =>
    match st.stack with
    | b :: a :: rest => .ok { st with stack := a :: b :: rest }
    | _ => .error (.evalError "swap requires two values on the stack")
  | "rot" =>
    match st.stack with
    | t1 :: t2 :: t3 :: rest => .ok { st with stack := t3 :: t1 :: t2 :: rest }
    | _ => .error (.evalError "rot requires three values on the stack")
  | "over" =>
    match st.stack with
    | b :: a :: rest => .ok { st with stack := a :: b :: a :: rest }
    | _ => .error (.evalError "over requires two values on the stack")
  | "tuck" =>
    match st.stack with
    | b :: a :: rest => .ok { st with stack := b :: a :: b :: rest }
    | _ => .error (.evalError "tuck requires two values on the stack")
  | "pick" =>
    match st.stack with
    | n0 :: r1 :: rrest =>
      match n0 with
      | .number n =>
        let rest := r1 :: rrest
        if h : 0 ≤ n ∧ n.toNat < rest.length then
          .ok { st with stack := rest.get ⟨n.toNat, h.2⟩ :: rest }
        else
          .error (.evalError ("Invalid pick depth: " ++ toString n))
      | _ => .error (.evalError "pick requires a number on the stack")
    | _ => .error (.evalError "pick requires a depth and at least one other value")
  | "create_resource" =>
    match st.stack with
    | tagv :: v :: rest =>
      match tagv with
      | .string s =>
        let (res, rm') := tag_as_resource v s st.resource_manager
        .ok { st with stack := res :: rest, resource_manager := rm' }
      | _ => .error (.evalError "create_resource requires a string resource type")
    | _ => .error (.evalError "create_resource requires a value and a resource type")
  | "consume_resource" =>
    match st.stack with
    | v :: rest =>
      match consume_resource v st.resource_manager with
      | (rm', .ok inner) => .ok { st with stack := inner :: rest, resource_manager := rm' }
      | (_, .error e) => .error e
    | [] => .error (.evalError "consume_resource requires a resource on the stack")
  | "borrow" =>
    match st.stack with
    | v :: rest =>
      match borrow_resource v st.resource_manager with
      | (rm', .ok borrowed) => .ok { st with stack := borrowed :: rest, resource_manager := rm' }
      | (_, .error e) => .error e
    | [] => .error (.evalError "borrow requires a resource on the stack")
  | "is_resource" =>
    match st.stack with
    | v :: rest =>
      .ok { st with stack := .number (if is_resource v then 1 else 0) :: rest }
    | [] => .error (.evalError "is_resource requires a value on the stack")
  | "resource_type" =>
    match st.stack with
    | v :: rest =>
      match get_resource_id v with
      | some id =>
        match st.resource_manager.resource_type id with
        | .ok type_name => .ok { st with stack := .string type_name :: rest }
        | .error e => .error e
      | none => .error (.evalError "resource_type requires a resource value")
    | [] => .error (.evalError "resource_type requires a value on the stack")
  | "with_borrowed" =>
    match st.stack with
    | quotv :: resv :: rest =>
      match quotv with
      | .quotation params _body _env =>
        if params.length != 1 then
          .error (.evalError "with_borrowed requires a quotation with exactly one parameter")
        else if !is_resource resv then
          .error (.evalError "with_borrowed requires a resource as the second argument")
        else
          let rm1 := st.resource_manager.start_region
          match borrow_resource resv rm1 with
          | (_, .error e) => .error e
          | (rm2, .ok borrowed) =>
            -- quotation application is a TODO in the source; only the
            -- borrow region bookkeeping happens
            match ResourceManager.end_region rm2 with
            | (_, .error e) => .error e
            | (rm3, .ok ()) =>
              .ok { st with stack := borrowed :: rest, resource_manager := rm3 }
      | _ => .error (.evalError "with_borrowed requires a quotation as the first argument")
    | _ => .error (.evalError "with_borrowed requires a resource and a quotation on the stack")
  | ".s" => .ok st
  | "depth" => .ok { st with stack := .number (st.stack.length : Int) :: st.stack }
  | ".resources" => .ok st
  | _ => .error (.evalError ("Unknown operation: " ++ operation))

/-- `Evaluator::eval_expr` (evaluator.rs) on the expression forms the claims
exercise.  A `Symbol` bound in the environment evaluates to the bound value;
an unbound one is dispatched to `execute_operation` and produces no value.
`Quotation`/`TypedQuotation` capture the current environment by value
(`Box::new(self.env.clone())`) without executing the body.  `Boolean` falls
into the Rust catch-all `Unsupported expression type` arm. -/
def eval_expr (e : Expr) (st : Evaluator) :
    Except EvaluatorError (Option Value × Evaluator) :=
  match e with
  | .num n => .ok (some (.number n), st)
  | .str s => .ok (some (.string s), st)
  | .boolean _ => .error (.evalError "Unsupported expression type")
  | .sym s =>
    match st.env.get s with
    | some v => .ok (some v, st)
    | none =>
      match execute_operation s st with
      | .ok st' => .ok (none, st')
      | .error e => .error e
  | .quot params body => .ok (some (.quotation params body (some st.env)), st)
  | .typedQuot params body returnType =>
    .ok (some (.typedQuotation params body returnType (some st.env)), st)
  | .pipeline l r =>
    match eval_expr l st with
    | .error e => .error e
    | .ok (some v, st1) => eval_expr r { st1 with stack := v :: st1.stack }
    | .ok (none, st1) => eval_expr r st1

/-- Modelled from the spec (§4.3, §8): the driver that runs an expression
sequence against the evaluator.  Quotation application is an unimplemented
TODO in evaluator.rs (line 628), so only the spec describes how STACKER
output is run: each expression is evaluated with `eval_expr` left to right
and a produced value is pushed onto the stack — exactly the discipline the
implemented `Pipeline` arm of `eval_expr` uses for its left-hand value. -/
def run_seq (body : List Expr) (st : Evaluator) : Except EvaluatorError Evaluator :=
  match body with
  | [] => .ok st
  | e :: rest =>
    match eval_expr e st with
    | .error e' => .error e'
    | .ok (some v, st') => run_seq rest { st' with stack := v :: st'.stack }
    | .ok (none, st') => run_seq rest st'

/-- Modelled from the spec (§8, translation equivalence): textual
substitution of parameter names by integer literals, the reference
semantics STACKER output is compared against.  Nested quotations are out of
scope for parameter capture (spec §4.3 step 2), so substitution does not
descend into them. -/
def subst_params (vals : List (String × Int)) : Expr → Expr
  | .sym s =>
    match List.lookup s vals with
    | some n => .num n
    | none => .sym s
  | .pipeline l r => .pipeline (subst_params vals l) (subst_params vals r)
  | e => e

/-- `subst_params` over a body. -/
def subst_body (vals : List (String × Int)) (body : List Expr) : List Expr :=
  body.map (subst_params vals)

/-! Predicates used by the claim statements. -/

/-- A body with only literal and symbol expressions (no nested quotations or
pipelines). -/
def flat_expr : Expr → Bool
  | .num _ => true
  | .str _ => true
  | .boolean _ => true
  | .sym _ => true
  | _ => false

/-- All expressions of the body are flat. -/
def flat_body (body : List Expr) : Bool := body.all flat_expr

/-- The declared names of a parameter list. -/
def param_names (params : List Param) : List String := params.map Param.name

/-- The body contains a word that is not a parameter and has no declared
stack effect. -/
def has_unknown_word (params : List Param) (body : List Expr) : Bool :=
  body.any (fun e =>
    match e with
    | .sym s => !(param_names params).contains s && (get_word_effect s).isNone
    | _ => false)

/-- No numeric literal occurs in the sequence. -/
def num_free (l : List Expr) : Bool :=
  l.all (fun e => match e with | .num _ => false | _ => true)

/-! Helper lemmas. -/

theorem lookup_assocInsert_self {κ α : Type} [BEq κ] [LawfulBEq κ]
    (l : List (κ × α)) (k : κ) (v : α) :
    List.lookup k (assocInsert l k v) = some v := by
  induction l with
  | nil => simp [assocInsert, List.lookup]
  | cons hd t ih =>
    obtain ⟨k', v'⟩ := hd
    by_cases hk : k' == k
    · simp [assocInsert, hk, List.lookup]
    · simp only [assocInsert, hk, if_neg, Bool.false_eq_true, not_false_eq_true, ite_false]
      have hk2 : (k == k') = false := by
        have hne : k' ≠ k := by
          intro h
          exact hk (by simp [h])
        simp [beq_eq_false_iff_ne]
        exact fun h => hne h.symm
      simp [List.lookup, hk2, ih]

theorem lookup_assocInsert_ne {κ α : Type} [BEq κ] [LawfulBEq κ]
    (l : List (κ × α)) (k k' : κ) (v : α) (h : (k' == k) = false) :
    List.lookup k' (assocInsert l k v) = List.lookup k' l := by
  induction l with
  | nil => simp [assocInsert, List.lookup, h]
  | cons hd t ih =>
    obtain ⟨k0, v0⟩ := hd
    by_cases hk : k0 == k
    · have hk0 : k0 = k := eq_of_beq hk
      subst hk0
      simp [assocInsert, List.lookup, h]
    · simp only [assocInsert, hk, Bool.false_eq_true, not_false_eq_true, ite_false]
      simp [List.lookup, ih]

theorem translate_sym_preserves_param_depths (st : StackerTranslator) (s : String)
    (i : Nat) (st' : StackerTranslator)
    (h : translate_expr_enhanced st (.sym s) i = .ok st') :
    st'.param_depths = st.param_depths := by
  simp only [translate_expr_enhanced, consumeLastUse] at h
  repeat' split at h
  all_goals
    first
    | (replace h := Except.ok.inj h; subst h; rfl)
    | simp at h

theorem translate_flat_preserves_param_depths (st : StackerTranslator) (e : Expr)
    (i : Nat) (st' : StackerTranslator) (hf : flat_expr e = true)
    (h : translate_expr_enhanced st e i = .ok st') :
    st'.param_depths = st.param_depths := by
  cases e with
  | num n =>
    simp only [translate_expr_enhanced] at h
    replace h := Except.ok.inj h; subst h; rfl
  | str s =>
    simp only [translate_expr_enhanced] at h
    replace h := Except.ok.inj h; subst h; rfl
  | boolean b =>
    simp only [translate_expr_enhanced] at h
    replace h := Except.ok.inj h; subst h; rfl
  | sym s => exact translate_sym_preserves_param_depths st s i st' h
  | pipeline l r => simp [flat_expr] at hf
  | quot p b => simp [flat_expr] at hf
  | typedQuot p b r => simp [flat_expr] at hf

theorem analyze_expr_preserves_param_depths :
    ∀ (st : StackerTranslator) (e : Expr) (i : Nat),
    (analyze_expr st e i).param_depths = st.param_depths
  | st, .num _, i => rfl
  | st, .str _, i => rfl
  | st, .boolean _, i => rfl
  | st, .sym s, i => by
    simp only [analyze_expr]
    split <;> rfl
  | st, .pipeline l r, i => by
    simp only [analyze_expr]
    rw [analyze_expr_preserves_param_depths _ r 1,
      analyze_expr_preserves_param_depths _ l 0]
  | st, .quot _ _, i => rfl
  | st, .typedQuot _ _ _, i => rfl

theorem analyze_list_preserves_param_depths (body : List Expr) :
    ∀ (st : StackerTranslator) (i : Nat),
    (analyze_list st i body).param_depths = st.param_depths := by
  induction body with
  | nil => intro st i; rfl
  | cons e rest ih =>
    intro st i
    simp only [analyze_list]
    rw [ih, analyze_expr_preserves_param_depths]

theorem seed_lookup_none (params : List Param) (s : String)
    (h : ∀ p ∈ params, p.name ≠ s) :
    List.lookup s (seedParamDepths StackerTranslator.empty params).param_depths = none := by
  have main :
      ∀ (L : List (Nat × Param)) (st : StackerTranslator),
        (∀ p ∈ L, p.2.name ≠ s) →
        List.lookup s st.param_depths = none →
        List.lookup s
          ((L.foldl
            (fun st' (p : Nat × Param) =>
              { st' with
                  param_depths := assocInsert st'.param_depths p.2.name p.1
                  adjusted_param_depths :=
                    assocInsert st'.adjusted_param_depths p.2.name (p.1 : Int) })
            st).param_depths) = none := by
    intro L
    induction L with
    | nil => intro st _ h0; exact h0
    | cons hd t ih =>
      intro st hL h0
      simp only [List.foldl_cons]
      apply ih
      · intro p hp; exact hL p (List.mem_cons_of_mem hd hp)
      · have hne : (s == hd.2.name) = false := by
          have := hL hd (List.mem_cons_self hd t)
          simp [beq_eq_false_iff_ne]
          exact fun hh => this hh.symm
        rw [lookup_assocInsert_ne _ _ _ _ hne]
        exact h0
  apply main
  · intro p hp
    apply h
    have hp2 := List.mem_reverse.mp hp
    have hg := List.mem_enum_iff_getElem?.mp hp2
    exact List.getElem?_mem hg
  · rfl

theorem translate_list_unknown_error (body : List Expr) :
    ∀ (st : StackerTranslator) (i : Nat),
    flat_body body = true →
    (∃ s, Expr.sym s ∈ body ∧ List.lookup s st.param_depths = none ∧
      get_word_effect s = none) →
    isError (translate_body_list st i body) = true := by
  induction body with
  | nil =>
    intro st i _ hex
    obtain ⟨s, hmem, _, _⟩ := hex
    simp at hmem
  | cons e rest ih =>
    intro st i hflat hex
    obtain ⟨s, hmem, hpd, heff⟩ := hex
    have hflat_e : flat_expr e = true := by
      simp [flat_body, List.all_cons] at hflat
      exact hflat.1
    have hflat_rest : flat_body rest = true := by
      simp [flat_body, List.all_cons] at hflat ⊢
      exact hflat.2
    rcases hcall : translate_expr_enhanced st e i with e' | st'
    · simp [translate_body_list, hcall, isError, Bind.bind, Except.bind]
    · have hstep : translate_body_list st i (e :: rest)
          = translate_body_list st' (i + 1) rest := by
        simp [translate_body_list, hcall, Bind.bind, Except.bind]
      rw [hstep]
      rcases List.mem_cons.mp hmem with hcase | hcase
      · subst hcase
        simp [translate_expr_enhanced, hpd, heff] at hcall
      · apply ih st' (i + 1) hflat_rest
        refine ⟨s, hcase, ?_, heff⟩
        rw [translate_flat_preserves_param_depths st e i st' hflat_e hcall]
        exact hpd

theorem translate_unknown_word_errors (params : List Param) (body : List Expr)
    (hflat : flat_body body = true) (hunk : has_unknown_word params body = true) :
    isError (StackerTranslator.translate params body) = true := by
  obtain ⟨e, hmem, hpred⟩ := List.any_eq_true.mp hunk
  have hex : ∃ s, Expr.sym s ∈ body ∧
      List.lookup s ((analyze_parameter_usage
        (seedParamDepths StackerTranslator.empty params) body).param_depths) = none ∧
      get_word_effect s = none := by
    cases e with
    | sym s =>
      simp only [Bool.and_eq_true, Bool.not_eq_true'] at hpred
      refine ⟨s, hmem, ?_, ?_⟩
      · rw [analyze_parameter_usage, analyze_list_preserves_param_depths]
        apply seed_lookup_none
        intro p hp hname
        have hmem2 : s ∈ param_names params := by
          rw [← hname]
          exact List.mem_map_of_mem Param.name hp
        have hnot : s ∉ param_names params := by
          have h1 := hpred.1
          simp at h1
          exact h1
        exact hnot hmem2
      · exact Option.isNone_iff_eq_none.mp hpred.2
    | num n => simp at hpred
    | str s2 => simp at hpred
    | boolean b => simp at hpred
    | pipeline l r => simp at hpred
    | quot p b => simp at hpred
    | typedQuot p b r => simp at hpred
  have herr := translate_list_unknown_error body _ 0 hflat hex
  rcases hres : translate_body_list (analyze_parameter_usage
      (seedParamDepths StackerTranslator.empty params) body) 0 body with e0 | st2
  · simp [StackerTranslator.translate, hres, isError, Bind.bind, Except.bind]
  · rw [hres] at herr
    simp [isError] at herr

theorem num_free_peephole_id (l : List Expr) (h : num_free l = true) :
    apply_peephole_optimizations l = l := by
  induction l with
  | nil => rfl
  | cons x xs ih =>
    simp only [num_free, List.all_cons, Bool.and_eq_true] at h
    obtain ⟨hx, hxs⟩ := h
    have ih' := ih hxs
    cases x with
    | num n => simp at hx
    | str s => rw [show apply_peephole_optimizations (Expr.str s :: xs)
        = Expr.str s :: apply_peephole_optimizations xs from rfl, ih']
    | boolean b => rw [show apply_peephole_optimizations (Expr.boolean b :: xs)
        = Expr.boolean b :: apply_peephole_optimizations xs from rfl, ih']
    | sym s => rw [show apply_peephole_optimizations (Expr.sym s :: xs)
        = Expr.sym s :: apply_peephole_optimizations xs from rfl, ih']
    | pipeline a b => rw [show apply_peephole_optimizations (Expr.pipeline a b :: xs)
        = Expr.pipeline a b :: apply_peephole_optimizations xs from rfl, ih']
    | quot p b => rw [show apply_peephole_optimizations (Expr.quot p b :: xs)
        = Expr.quot p b :: apply_peephole_optimizations xs from rfl, ih']
    | typedQuot p b r => rw [show apply_peephole_optimizations (Expr.typedQuot p b r :: xs)
        = Expr.typedQuot p b r :: apply_peephole_optimizations xs from rfl, ih']


theorem translate_expr_flat_eq :
    ∀ (e : Expr) (st : StackerTranslator) (i : Nat), quot_free e = true →
    translate_expr_enhanced st e i = translate_expr_flat st e i
  | .num _, st, i, _ => by simp only [translate_expr_enhanced, translate_expr_flat]
  | .str _, st, i, _ => by simp only [translate_expr_enhanced, translate_expr_flat]
  | .boolean _, st, i, _ => by simp only [translate_expr_enhanced, translate_expr_flat]
  | .sym _, st, i, _ => by simp only [translate_expr_enhanced, translate_expr_flat]
  | .pipeline l r, st, i, h => by
    simp only [quot_free, Bool.and_eq_true] at h
    simp only [translate_expr_enhanced, translate_expr_flat, Bind.bind, Except.bind]
    rw [translate_expr_flat_eq l st i h.1]
    rcases translate_expr_flat st l i with e' | st1
    · rfl
    · exact translate_expr_flat_eq r st1 i h.2
  | .typedQuot _ _ _, st, i, _ => by
    simp only [translate_expr_enhanced, translate_expr_flat]

theorem translate_body_flat_eq :
    ∀ (body : List Expr) (st : StackerTranslator) (i : Nat),
    body.all quot_free = true →
    translate_body_list st i body = translate_body_flat st i body := by
  intro body
  induction body with
  | nil => intro st i _; simp only [translate_body_list, translate_body_flat]
  | cons e rest ih =>
    intro st i h
    simp only [List.all_cons, Bool.and_eq_true] at h
    simp only [translate_body_list, translate_body_flat, Bind.bind, Except.bind]
    rw [translate_expr_flat_eq e st i h.1]
    rcases translate_expr_flat st e i with e' | st'
    · rfl
    · exact ih st' (i + 1) h.2

theorem translate_flat_eq (params : List Param) (body : List Expr)
    (h : body.all quot_free = true) :
    StackerTranslator.translate params body = translate_flat params body := by
  simp only [StackerTranslator.translate, translate_flat, Bind.bind, Except.bind]
  rw [translate_body_flat_eq body _ 0 h]
  rcases translate_body_flat
      (analyze_parameter_usage (seedParamDepths StackerTranslator.empty params) body)
      0 body with e' | st2
  · rfl
  · rfl

/-! Claim theorems. -/

/-- C1 counterexample: translation equivalence fails on the code.
(i) For params `[x, y]` and body `[x, x, "add", y, "add"]` (all
non-parameter words have declared effects) translation succeeds, but
running its output against the stack pre-loaded with 3 then 4 leaves `[11]`
while substituting the parameters and evaluating leaves `[10]`.
(ii) The claim's own example `[x, y, "+"]` on `[3, 4]` does not yield 7:
the translated output is `["+"]` and `+` is not an operation the evaluator
knows (`execute_operation` has no `+` arm), so running it fails. -/
theorem C1_counterexample :
    StackerTranslator.translate [⟨"x", none⟩, ⟨"y", none⟩]
        [.sym "x", .sym "x", .sym "add", .sym "y", .sym "add"]
      = .ok [.num 0, .sym "pick", .sym "swap", .sym "add", .sym "swap", .sym "add"] ∧
    run_seq [.num 0, .sym "pick", .sym "swap", .sym "add", .sym "swap", .sym "add"]
        ⟨Env.new, [.number 4, .number 3], ResourceManager.new⟩
      = .ok ⟨Env.new, [.number 11], ResourceManager.new⟩ ∧
    run_seq (subst_body [("x", 3), ("y", 4)]
        [.sym "x", .sym "x", .sym "add", .sym "y", .sym "add"])
        ⟨Env.new, [], ResourceManager.new⟩
      = .ok ⟨Env.new, [.number 10], ResourceManager.new⟩ ∧
    ([Value.number 11] : List Value) ≠ [Value.number 10] ∧
    StackerTranslator.translate [⟨"x", none⟩, ⟨"y", none⟩]
        [.sym "x", .sym "y", .sym "+"] = .ok [.sym "+"] ∧
    run_seq [.sym "+"] ⟨Env.new, [.number 4, .number 3], ResourceManager.new⟩
      = .error (.evalError "Unknown operation: +") := by
  refine ⟨?_, rfl, rfl, by simp, ?_, rfl⟩
  · rw [translate_flat_eq _ _ (by rfl)]; rfl
  · rw [translate_flat_eq _ _ (by rfl)]; rfl

/-- C1 (amended): for params `[x, y]` and body `[x, y, "add"]` — the
operation name the evaluator actually implements for addition — the STACKER
output run against a stack pre-loaded with any two values v1 then v2 yields
the same final stack as substituting the parameters and evaluating the body
from an empty stack, namely the single value `wrap32 (v1 + v2)`; at 3 and 4
this is 7.  (The original claim's quantification over all size-1..4
parameter lists and all declared-effect bodies, and its use of `+`, are
refuted by `C1_counterexample`.) -/
theorem C1_amended_equivalence (v1 v2 : Int) :
    StackerTranslator.translate [⟨"x", none⟩, ⟨"y", none⟩]
        [.sym "x", .sym "y", .sym "add"] = .ok [.sym "add"] ∧
    run_seq [.sym "add"] ⟨Env.new, [.number v2, .number v1], ResourceManager.new⟩
      = .ok ⟨Env.new, [.number (wrap32 (v1 + v2))], ResourceManager.new⟩ ∧
    run_seq (subst_body [("x", v1), ("y", v2)] [.sym "x", .sym "y", .sym "add"])
        ⟨Env.new, [], ResourceManager.new⟩
      = .ok ⟨Env.new, [.number (wrap32 (v1 + v2))], ResourceManager.new⟩ ∧
    wrap32 (3 + 4) = 7 := by
  refine ⟨?_, rfl, rfl, by decide⟩
  rw [translate_flat_eq _ _ (by rfl)]; rfl

/-- C2: the spec's depth-3 example fails in the code.  Translating params
`[a, b, c]` with body `[a, b, "+", c, "*"]` does not succeed: the
translator's depth bookkeeping (the leftmost parameter is seeded at depth 0
and the adjusted-depth update after each consuming access decrements the
wrong entries) drives the computed depth of `c` to -1, so `translate`
aborts with the NegativeDepth stack-effect error instead of producing code
that would yield `(2+3)*4 = 20`. -/
theorem C2_depth3_fails_negative_depth :
    StackerTranslator.translate [⟨"a", none⟩, ⟨"b", none⟩, ⟨"c", none⟩]
        [.sym "a", .sym "b", .sym "+", .sym "c", .sym "*"]
      = .error (.negativeDepth "c" (-1)) := by
  rw [translate_flat_eq _ _ (by rfl)]; rfl

/-- C3 counterexample: the peephole pass is not idempotent on its own
output.  Translating params `[x, y, z]` with body
`[add, z, x, drop, z, x]` emits (after the translator's own peephole pass)
`[add, 1, pick, drop, rot]`; applying `apply_peephole_optimizations` to
this emitted sequence rewrites it again (its `1 pick drop → nip` window
only appears once the first pass has fired `0 pick drop → drop`), giving
`[add, nip, rot]`, not the input. -/
theorem C3_counterexample :
    StackerTranslator.translate [⟨"x", none⟩, ⟨"y", none⟩, ⟨"z", none⟩]
        [.sym "add", .sym "z", .sym "x", .sym "drop", .sym "z", .sym "x"]
      = .ok [.sym "add", .num 1, .sym "pick", .sym "drop", .sym "rot"] ∧
    apply_peephole_optimizations [.sym "add", .num 1, .sym "pick", .sym "drop", .sym "rot"]
      = [.sym "add", .sym "nip", .sym "rot"] ∧
    ([Expr.sym "add", .sym "nip", .sym "rot"] : List Expr)
      ≠ [.sym "add", .num 1, .sym "pick", .sym "drop", .sym "rot"] := by
  refine ⟨?_, rfl, by simp⟩
  rw [translate_flat_eq _ _ (by rfl)]; rfl

/-- C3 (amended): the peephole pass is not idempotent in general (see
`C3_counterexample`); it is the identity — and hence a fixpoint is reached
after one pass — on every operation sequence containing no numeric
literal, since all of its rewrite windows start with the literal `1` or
`0`. -/
theorem C3_amended_idempotent_on_num_free (l : List Expr) (h : num_free l = true) :
    apply_peephole_optimizations l = l ∧
    apply_peephole_optimizations (apply_peephole_optimizations l)
      = apply_peephole_optimizations l := by
  have hid := num_free_peephole_id l h
  exact ⟨hid, by rw [hid]; exact hid⟩

/-- C3 witness: a concrete numeral-free sequence on which the pass is a
fixpoint. -/
theorem C3_amended_witness :
    num_free [Expr.sym "swap", .sym "drop"] = true ∧
    (apply_peephole_optimizations [Expr.sym "swap", .sym "drop"]
        = [Expr.sym "swap", .sym "drop"] ∧
     apply_peephole_optimizations
        (apply_peephole_optimizations [Expr.sym "swap", .sym "drop"])
        = apply_peephole_optimizations [Expr.sym "swap", .sym "drop"]) :=
  ⟨rfl, C3_amended_idempotent_on_num_free [Expr.sym "swap", .sym "drop"] rfl⟩

/-- C4: translation-time failure semantics.
(i) Whenever a flat body contains a non-parameter word with no declared
stack effect, `translate` returns an error (the error aborts the
translation and propagates through every enclosing bind, so the caller
never receives output).
(ii) A body that refers to a parameter after stack effects have consumed
too many items fails with exactly the NegativeDepth error naming the
parameter and the computed negative index — never silently emitting a
wrong index: params `[x, y]`, body `[drop, x]`.
(iii) A reference to a parameter already marked consumed fails with the
ParamAlreadyConsumed error: in `[x, x |> y]` the first `x` is recorded as
the last use (the usage scan indexes the pipeline's operands 0 and 1), so
`x` is consumed there and the pipeline's `x` fails.
(iv) A body consisting of an unknown word fails with exactly the
UnknownWordEffect error. -/
theorem C4_translation_errors :
    (∀ (params : List Param) (body : List Expr),
      flat_body body = true →
      has_unknown_word params body = true →
      isError (StackerTranslator.translate params body) = true) ∧
    StackerTranslator.translate [⟨"x", none⟩, ⟨"y", none⟩] [.sym "drop", .sym "x"]
      = .error (.negativeDepth "x" (-1)) ∧
    StackerTranslator.translate [⟨"x", none⟩, ⟨"y", none⟩]
        [.sym "x", .pipeline (.sym "x") (.sym "y")]
      = .error (.paramAlreadyConsumed "x") ∧
    StackerTranslator.translate [] [.sym "frobnicate"]
      = .error (.unknownWordEffect "frobnicate") := by
  refine ⟨translate_unknown_word_errors, ?_, ?_, ?_⟩
  · rw [translate_flat_eq _ _ (by rfl)]; rfl
  · rw [translate_flat_eq _ _ (by rfl)]; rfl
  · rw [translate_flat_eq _ _ (by rfl)]; rfl

/-- C4 witness: the universally quantified conjunct applied to a concrete
flat body containing the unknown word `frobnicate`. -/
theorem C4_translation_errors_witness :
    flat_body [Expr.num 1, .sym "frobnicate"] = true ∧
    has_unknown_word [⟨"x", none⟩] [Expr.num 1, .sym "frobnicate"] = true ∧
    isError (StackerTranslator.translate [⟨"x", none⟩]
      [Expr.num 1, .sym "frobnicate"]) = true := by
  exact ⟨rfl, rfl,
    C4_translation_errors.1 [⟨"x", none⟩] [Expr.num 1, .sym "frobnicate"] rfl rfl⟩

/-- `with_resource_id` wraps any non-`Resource` value. -/
theorem with_resource_id_of_not_resource (v : Value) (id : Nat)
    (hv : is_resource v = false) : with_resource_id v id = .resource id v := by
  cases v <;> first | rfl | simp [is_resource] at hv

/-- C5 counterexample: consuming the handle created from a `Resource`-valued
inner value does not return that value.  `with_resource_id` re-tags an
already-`Resource` value instead of wrapping it, so
`create_resource("file", Resource(5, nil))` yields the handle
`Resource(0, nil)` and consuming it returns `nil`, not the original value
`Resource(5, nil)`. -/
theorem C5_counterexample :
    tag_as_resource (.resource 5 .nil) "file" ResourceManager.new
      = (.resource 0 .nil, ⟨[(0, ⟨0, "file", false⟩)], 1, []⟩) ∧
    (consume_resource (.resource 0 .nil) ⟨[(0, ⟨0, "file", false⟩)], 1, []⟩).2
      = .ok .nil ∧
    Value.nil ≠ Value.resource 5 Value.nil := by
  refine ⟨rfl, rfl, by simp⟩

/-- C5 (amended): resources are single-use, for every NON-resource inner
value `v` and every type tag (a `Resource`-valued `v` is re-tagged rather
than wrapped — see `C5_counterexample`).  From any manager state whose
fresh id is not borrowed: `create_resource`/`tag_as_resource` returns the
handle `Resource(id, v)`; the first `consume_resource` on that handle
succeeds, sets the resource's consumed flag, and returns the wrapped inner
value `v`; the second `consume_resource` on the same handle fails with the
AlreadyConsumed error and leaves the manager unchanged. -/
theorem C5_amended_single_use (rm : ResourceManager) (v : Value) (tag : String)
    (hv : is_resource v = false)
    (hb : rm.is_borrowed rm.next_id = false) :
    tag_as_resource v tag rm
      = (.resource rm.next_id v,
         { rm with
             next_id := rm.next_id + 1
             resources := assocInsert rm.resources rm.next_id
               (Resource.new rm.next_id tag) }) ∧
    consume_resource (.resource rm.next_id v)
        { rm with
            next_id := rm.next_id + 1
            resources := assocInsert rm.resources rm.next_id
              (Resource.new rm.next_id tag) }
      = ({ rm with
             next_id := rm.next_id + 1
             resources := assocInsert (assocInsert rm.resources rm.next_id
               (Resource.new rm.next_id tag)) rm.next_id ⟨rm.next_id, tag, true⟩ },
         .ok v) ∧
    List.lookup rm.next_id
        (assocInsert (assocInsert rm.resources rm.next_id
          (Resource.new rm.next_id tag)) rm.next_id ⟨rm.next_id, tag, true⟩)
      = some ⟨rm.next_id, tag, true⟩ ∧
    consume_resource (.resource rm.next_id v)
        { rm with
            next_id := rm.next_id + 1
            resources := assocInsert (assocInsert rm.resources rm.next_id
              (Resource.new rm.next_id tag)) rm.next_id ⟨rm.next_id, tag, true⟩ }
      = ({ rm with
             next_id := rm.next_id + 1
             resources := assocInsert (assocInsert rm.resources rm.next_id
               (Resource.new rm.next_id tag)) rm.next_id ⟨rm.next_id, tag, true⟩ },
         .error (.evalError ("Resource " ++ toString rm.next_id ++ " (type "
           ++ tag ++ ") already consumed"))) := by
  refine ⟨?_, ?_, ?_, ?_⟩
  · simp [tag_as_resource, ResourceManager.create_resource,
      with_resource_id_of_not_resource v rm.next_id hv]
  · have hb2 : rm.current_regions.any (fun region => region.contains rm.next_id) = false := hb
    have hb3 : ¬∃ x ∈ rm.current_regions, rm.next_id ∈ x := by simpa using hb2
    simp [consume_resource, get_resource_id, ResourceManager.consume_resource,
      ResourceManager.is_borrowed, lookup_assocInsert_self, Resource.mark_consumed,
      Resource.new, hb3]
  · exact lookup_assocInsert_self _ _ _
  · have hb2 : rm.current_regions.any (fun region => region.contains rm.next_id) = false := hb
    have hb3 : ¬∃ x ∈ rm.current_regions, rm.next_id ∈ x := by simpa using hb2
    simp [consume_resource, get_resource_id, ResourceManager.consume_resource,
      ResourceManager.is_borrowed, lookup_assocInsert_self, Resource.mark_consumed,
      Resource.new, hb3]

/-- C5 witness: the amended claim at a fresh manager, inner value `nil`,
type tag `file`. -/
theorem C5_amended_single_use_witness :
    consume_resource (.resource 0 .nil) ⟨[(0, ⟨0, "file", false⟩)], 1, []⟩
      = (⟨[(0, ⟨0, "file", true⟩)], 1, []⟩, .ok .nil) ∧
    consume_resource (.resource 0 .nil) ⟨[(0, ⟨0, "file", true⟩)], 1, []⟩
      = (⟨[(0, ⟨0, "file", true⟩)], 1, []⟩,
         .error (.evalError "Resource 0 (type file) already consumed")) := by
  have h := C5_amended_single_use ResourceManager.new .nil "file" rfl rfl
  exact ⟨h.2.1, h.2.2.2⟩

/-- C6: borrowing blocks consumption.
(i) Generally: for any manager state, if the id of an existing resource is
present in any currently-open region, `consume_resource` fails with the
BorrowedActive error and returns the manager unchanged (so the resource
stays unconsumed).
(ii) The §8 sequence, for every non-resource inner value and tag, from a
fresh manager: after `create_resource`, `start_region` and `borrow`, the
consume fails with BorrowedActive; after `end_region` pops the region, the
consume succeeds, marks the resource consumed and returns the inner
value. -/
theorem C6_borrow_blocks_consumption :
    (∀ (rm : ResourceManager) (id : Nat) (r : Resource),
      List.lookup id rm.resources = some r →
      rm.is_borrowed id = true →
      rm.consume_resource id
        = (rm, .error (.evalError ("Cannot consume borrowed resource " ++ toString id
            ++ " (type " ++ r.resource_type ++ ")")))) ∧
    (∀ (v : Value) (tag : String), is_resource v = false →
      tag_as_resource v tag ResourceManager.new
        = (.resource 0 v, ⟨[(0, ⟨0, tag, false⟩)], 1, []⟩) ∧
      ResourceManager.start_region ⟨[(0, ⟨0, tag, false⟩)], 1, []⟩
        = ⟨[(0, ⟨0, tag, false⟩)], 1, [[]]⟩ ∧
      borrow_resource (.resource 0 v) ⟨[(0, ⟨0, tag, false⟩)], 1, [[]]⟩
        = (⟨[(0, ⟨0, tag, false⟩)], 1, [[0]]⟩, .ok (.borrowedResource 0 v)) ∧
      consume_resource (.resource 0 v) ⟨[(0, ⟨0, tag, false⟩)], 1, [[0]]⟩
        = (⟨[(0, ⟨0, tag, false⟩)], 1, [[0]]⟩,
           .error (.evalError ("Cannot consume borrowed resource " ++ toString (0 : Nat)
             ++ " (type " ++ tag ++ ")"))) ∧
      ResourceManager.end_region ⟨[(0, ⟨0, tag, false⟩)], 1, [[0]]⟩
        = (⟨[(0, ⟨0, tag, false⟩)], 1, []⟩, .ok ()) ∧
      consume_resource (.resource 0 v) ⟨[(0, ⟨0, tag, false⟩)], 1, []⟩
        = (⟨[(0, ⟨0, tag, true⟩)], 1, []⟩, .ok v)) := by
  constructor
  · intro rm id r h1 h2
    simp [ResourceManager.consume_resource, h1, h2]
  · intro v tag hv
    refine ⟨?_, rfl, rfl, rfl, rfl, rfl⟩
    simp [tag_as_resource, ResourceManager.create_resource, ResourceManager.new,
      with_resource_id_of_not_resource v 0 hv, assocInsert, Resource.new]

/-- C6 witness: both parts at a concrete state — the general part at the
one-resource manager with id 0 borrowed in the open region, and the
sequence at inner value `nil` with tag `file`. -/
theorem C6_borrow_blocks_consumption_witness :
    ResourceManager.consume_resource ⟨[(0, ⟨0, "file", false⟩)], 1, [[0]]⟩ 0
      = (⟨[(0, ⟨0, "file", false⟩)], 1, [[0]]⟩,
         .error (.evalError "Cannot consume borrowed resource 0 (type file)")) ∧
    consume_resource (.resource 0 .nil) ⟨[(0, ⟨0, "file", false⟩)], 1, []⟩
      = (⟨[(0, ⟨0, "file", true⟩)], 1, []⟩, .ok .nil) := by
  have h1 := C6_borrow_blocks_consumption.1 ⟨[(0, ⟨0, "file", false⟩)], 1, [[0]]⟩ 0
    ⟨0, "file", false⟩ rfl rfl
  have h2 := (C6_borrow_blocks_consumption.2 .nil "file" rfl).2.2.2.2.2
  exact ⟨h1, h2⟩

/-- C7: borrowing errors and the borrowed handle.
(i) `borrow_resource` on a handle whose id is unknown fails with the
UnknownId error; (ii) on a handle whose resource is already consumed it
fails with the Consumed error; (iii) otherwise (live, unconsumed, some
region open) it inserts the id into the innermost open region and returns
a `BorrowedResource` handle carrying the same id and inner value;
(iv) passing a `BorrowedResource` handle to `consume_resource` is always
rejected: `get_resource_id` yields `none` for it, so consumption fails
with "Expected a resource value" and the manager is untouched. -/
theorem C7_borrow_resource_contract :
    (∀ (rm : ResourceManager) (id : Nat) (inner : Value),
      List.lookup id rm.resources = none →
      borrow_resource (.resource id inner) rm
        = (rm, .error (.evalError ("Resource with ID " ++ toString id ++ " not found")))) ∧
    (∀ (rm : ResourceManager) (id : Nat) (inner : Value) (r : Resource),
      List.lookup id rm.resources = some r →
      r.consumed = true →
      borrow_resource (.resource id inner) rm
        = (rm, .error (.evalError ("Resource " ++ toString id ++ " (type "
            ++ r.resource_type ++ ") has been consumed")))) ∧
    (∀ (rm : ResourceManager) (id : Nat) (inner : Value) (r : Resource)
        (region : List Nat) (rest : List (List Nat)),
      List.lookup id rm.resources = some r →
      r.consumed = false →
      rm.current_regions = region :: rest →
      borrow_resource (.resource id inner) rm
        = ({ rm with current_regions := setInsert region id :: rest },
           .ok (.borrowedResource id inner))) ∧
    (∀ (rm : ResourceManager) (id : Nat) (inner : Value),
      consume_resource (.borrowedResource id inner) rm
        = (rm, .error (.evalError "Expected a resource value"))) := by
  refine ⟨?_, ?_, ?_, fun rm id inner => rfl⟩
  · intro rm id inner h
    simp [borrow_resource, get_resource_id, ResourceManager.borrow_resource,
      ResourceManager.check_resource, h]
  · intro rm id inner r h1 h2
    simp [borrow_resource, get_resource_id, ResourceManager.borrow_resource,
      ResourceManager.check_resource, h1, h2]
  · intro rm id inner r region rest h1 h2 h3
    simp [borrow_resource, get_resource_id, ResourceManager.borrow_resource,
      ResourceManager.check_resource, h1, h2, h3]

/-- C7 witness: all four conjuncts at concrete states. -/
theorem C7_borrow_resource_contract_witness :
    borrow_resource (.resource 7 .nil) ResourceManager.new
      = (ResourceManager.new, .error (.evalError "Resource with ID 7 not found")) ∧
    borrow_resource (.resource 0 .nil) ⟨[(0, ⟨0, "file", true⟩)], 1, [[]]⟩
      = (⟨[(0, ⟨0, "file", true⟩)], 1, [[]]⟩,
         .error (.evalError "Resource 0 (type file) has been consumed")) ∧
    borrow_resource (.resource 0 .nil) ⟨[(0, ⟨0, "file", false⟩)], 1, [[]]⟩
      = (⟨[(0, ⟨0, "file", false⟩)], 1, [[0]]⟩, .ok (.borrowedResource 0 .nil)) ∧
    consume_resource (.borrowedResource 0 .nil) ResourceManager.new
      = (ResourceManager.new, .error (.evalError "Expected a resource value")) := by
  refine ⟨?_, ?_, ?_, ?_⟩
  · exact C7_borrow_resource_contract.1 ResourceManager.new 7 .nil rfl
  · exact C7_borrow_resource_contract.2.1 ⟨[(0, ⟨0, "file", true⟩)], 1, [[]]⟩ 0 .nil
      ⟨0, "file", true⟩ rfl rfl
  · exact C7_borrow_resource_contract.2.2.1 ⟨[(0, ⟨0, "file", false⟩)], 1, [[]]⟩ 0 .nil
      ⟨0, "file", false⟩ [] [] rfl rfl rfl
  · exact C7_borrow_resource_contract.2.2.2 ResourceManager.new 0 .nil

/-- The `isEmpty` of the leaked-entries list, as a function of whether some
resource is unconsumed. -/
theorem leaked_entries_isEmpty (l : List (Nat × Resource)) :
    (l.filterMap (fun p =>
        if !p.2.consumed then some (toString p.1 ++ " (type " ++ p.2.resource_type ++ ")")
        else none)).isEmpty
      = !(l.any (fun p => !p.2.consumed)) := by
  induction l with
  | nil => rfl
  | cons hd t ih =>
    by_cases hc : hd.2.consumed
    · simp [List.filterMap_cons, hc, List.any_cons]
      simpa using ih
    · simp [List.filterMap_cons, hc, List.any_cons]

/-- C8: leak detection.  `check_for_leaks` reports a leak (returns an
error) exactly when at least one resource's consumed flag is still false,
and its `leaked` list contains the `id (type tag)` entry of every
unconsumed resource.  The report is diagnostic: `check_for_leaks` takes
the manager read-only (it is a plain function of the state here, mirroring
`&self` in the Rust code), and returns the result to the caller instead of
aborting. -/
theorem C8_leak_detection :
    (∀ rm : ResourceManager,
      isError rm.check_for_leaks = rm.resources.any (fun p => !p.2.consumed)) ∧
    (∀ (rm : ResourceManager) (id : Nat) (r : Resource),
      (id, r) ∈ rm.resources → r.consumed = false →
      (toString id ++ " (type " ++ r.resource_type ++ ")") ∈ leaked_entries rm) := by
  constructor
  · intro rm
    have h : (leaked_entries rm).isEmpty = !(rm.resources.any (fun p => !p.2.consumed)) :=
      leaked_entries_isEmpty rm.resources
    cases hany : rm.resources.any (fun p => !p.2.consumed) with
    | false =>
      rw [hany] at h
      simp only [Bool.not_false] at h
      simp [ResourceManager.check_for_leaks, h, isError]
    | true =>
      rw [hany] at h
      simp only [Bool.not_true] at h
      simp [ResourceManager.check_for_leaks, h, isError]
  · intro rm id r hmem hc
    exact List.mem_filterMap.mpr ⟨(id, r), hmem, by simp [hc]⟩

/-- C8 witness: a manager with one consumed and one unconsumed resource
leaks, and the unconsumed resource's entry is reported. -/
theorem C8_leak_detection_witness :
    isError (ResourceManager.check_for_leaks
        ⟨[(0, ⟨0, "file", true⟩), (1, ⟨1, "socket", false⟩)], 2, []⟩)
      = true ∧
    ("1 (type socket)" : String)
      ∈ leaked_entries ⟨[(0, ⟨0, "file", true⟩), (1, ⟨1, "socket", false⟩)], 2, []⟩ := by
  constructor
  · exact C8_leak_detection.1 ⟨[(0, ⟨0, "file", true⟩), (1, ⟨1, "socket", false⟩)], 2, []⟩
  · exact C8_leak_detection.2 ⟨[(0, ⟨0, "file", true⟩), (1, ⟨1, "socket", false⟩)], 2, []⟩
      1 ⟨1, "socket", false⟩ (by simp) rfl

/-- `Env.set` followed by `Env.get` of the same name finds the new binding
in the current scope. -/
theorem env_get_set_self (env : Env) (name : String) (v : Value) :
    Env.get (Env.set env name v) name = some v := by
  cases env with
  | mk bindings parent =>
    cases parent with
    | none => simp [Env.set, Env.get, lookup_assocInsert_self]
    | some p => simp [Env.set, Env.get, lookup_assocInsert_self]

/-- C9: closure capture is a snapshot.  Evaluating a `Quotation` or
`TypedQuotation` expression returns a closure value that carries the
current environment by value and leaves the evaluator state untouched (the
body is not executed).  A later `Env.set` on the defining scope produces an
environment in which the name is bound, while the closure's captured
environment is the creation-time `st.env`, whose lookups are unaffected:
if the name was unbound at capture time, the two environments disagree on
it. -/
theorem C9_closure_snapshot (st : Evaluator) (ps : List Param) (body : List Expr)
    (rt : String) (name : String) (v : Value) :
    eval_expr (.quot ps body) st = .ok (some (.quotation ps body (some st.env)), st) ∧
    eval_expr (.typedQuot ps body rt) st
      = .ok (some (.typedQuotation ps body rt (some st.env)), st) ∧
    Env.get (Env.set st.env name v) name = some v ∧
    (Env.get st.env name = none →
      Env.get st.env name ≠ Env.get (Env.set st.env name v) name) := by
  refine ⟨rfl, rfl, env_get_set_self st.env name v, ?_⟩
  intro h0
  rw [h0, env_get_set_self st.env name v]
  simp

/-- C9 witness: capture and mutation at a fresh evaluator. -/
theorem C9_closure_snapshot_witness :
    eval_expr (.quot [] []) Evaluator.new
      = .ok (some (.quotation [] [] (some Env.new)), Evaluator.new) ∧
    Env.get (Env.set Env.new "a" (.number 1)) "a" = some (.number 1) ∧
    Env.get Env.new "a" ≠ Env.get (Env.set Env.new "a" (.number 1)) "a" := by
  have h := C9_closure_snapshot Evaluator.new [] [] "Num" "a" (.number 1)
  exact ⟨h.1, h.2.2.1, h.2.2.2 rfl⟩

/-- C10: failed consumption is atomic.  Whenever
`ResourceManager::consume_resource` returns an error — unknown id,
borrowed id, or already-consumed resource — the manager it leaves behind
is exactly the input manager: no consumed flag changes, the region stack
and `next_id` are untouched. -/
theorem C10_consume_error_atomic (rm : ResourceManager) (id : Nat)
    (e : EvaluatorError) (h : (rm.consume_resource id).2 = .error e) :
    (rm.consume_resource id).1 = rm := by
  rcases hl : List.lookup id rm.resources with _ | r
  · simp [ResourceManager.consume_resource, hl]
  · by_cases hb : rm.is_borrowed id
    · simp [ResourceManager.consume_resource, hl, hb]
    · rcases hm : r.mark_consumed with e' | r'
      · simp [ResourceManager.consume_resource, hl, hb, hm]
      · exfalso
        rw [show (rm.consume_resource id).2 = .ok () by
          simp [ResourceManager.consume_resource, hl, hb, hm]] at h
        exact Except.noConfusion h

/-- C10 witness: consuming an unknown id from a fresh manager errors and
leaves the manager unchanged. -/
theorem C10_consume_error_atomic_witness :
    (ResourceManager.new.consume_resource 0).1 = ResourceManager.new :=
  C10_consume_error_atomic ResourceManager.new 0
    (.evalError "Resource with ID 0 not found") rfl
